import Mathlib

/-!
Shallow embedding of `kap/crawler.py` (KAP announcement crawler) and proofs
about its fetch / normalize / attachment-resolution pipeline.

Modelling conventions:
* JSON / Python values are represented by `JVal`; Python `None` is `JVal.jNull`.
  Numbers are modelled as integers (the API identifiers and attachment counts
  are integers).
* Python truthiness, `dict.get`, `str()`, `x or y`, `x > 0`, `==`, `str.split`,
  `str.strip` and list slicing are embedded as explicit total functions; a
  Python comparison that raises `TypeError` is modelled by an `Option` result
  (`none` = the comparison raised).
* Network effects are abstracted by explicit outcome values: `HttpOutcome` for
  the API `POST` of a fetch call and `PageOutcome` for the detail-page `GET` of
  the attachment resolver.  `self._fetch_attachment_urls` as used inside the
  per-item extractors is abstracted by a `resolver : String → List String`
  argument (it is total: the real method catches every exception and returns a
  list).
* Calendar dates are modelled as day ordinals (integers): `datetime.now()` is
  day `today`, `timedelta(days=365)` subtracts 365, and `strftime("%Y-%m-%d")`
  renders a day injectively, so the string-level date arithmetic of the source
  is faithfully represented by integer arithmetic on ordinals.
-/

/-- A JSON / Python value as decoded from the API response. -/
inductive JVal where
  | jNull
  | jBool (b : Bool)
  | jNum (n : Int)
  | jStr (s : String)
  | jArr (elems : List JVal)
  | jObj (fields : List (String × JVal))

/-- Python truthiness of a value (`if v:`). -/
def truthy : JVal → Bool
  | .jNull => false
  | .jBool b => b
  | .jNum n => n != 0
  | .jStr s => s != ""
  | .jArr l => !l.isEmpty
  | .jObj f => !f.isEmpty

/-- Python `d.get(key)` on a JSON object: the field value, or `None` when the
key is absent. -/
def dictGet (fields : List (String × JVal)) (key : String) : JVal :=
  match fields.lookup key with
  | some v => v
  | none => .jNull

/-- Python `d.get(key, default)` on a JSON object. -/
def dictGetD (fields : List (String × JVal)) (key : String) (dflt : JVal) : JVal :=
  match fields.lookup key with
  | some v => v
  | none => dflt

mutual
/-- Python `repr()` of a value (string escaping inside `repr` of a string is
not modelled; no theorem depends on it). -/
def pyRepr : JVal → String
  | .jNull => "None"
  | .jBool b => if b then "True" else "False"
  | .jNum n => toString n
  | .jStr s => "\x27" ++ s ++ "\x27"
  | .jArr l => "[" ++ String.intercalate ", " (pyReprList l) ++ "]"
  | .jObj f => "\x7b" ++ String.intercalate ", " (pyReprFields f) ++ "\x7d"

def pyReprList : List JVal → List String
  | [] => []
  | v :: vs => pyRepr v :: pyReprList vs

def pyReprFields : List (String × JVal) → List String
  | [] => []
  | (k, v) :: fs => ("\x27" ++ k ++ "\x27: " ++ pyRepr v) :: pyReprFields fs
end

/-- Python `str()` of a value, as used by f-string interpolation. -/
def pyStr (v : JVal) : String :=
  match v with
  | .jStr s => s
  | _ => pyRepr v

/-- Python comparison `v > 0`.  `none` models a raised `TypeError`
(`None > 0`, `"x" > 0`, `[] > 0`, … all raise); booleans compare as the
integers 0 and 1. -/
def pyGtZero : JVal → Option Bool
  | .jNum n => some (decide (0 < n))
  | .jBool b => some b
  | _ => none

mutual
/-- Python equality `==` on values: booleans equal the integers 0 / 1, values
of unrelated kinds are unequal, lists compare pointwise.  (Python dict
equality is key-based; pairwise field equality is used here — no theorem in
this file compares two `jObj` values.) -/
def pyEq : JVal → JVal → Bool
  | .jNull, .jNull => true
  | .jBool a, .jBool b => a == b
  | .jBool a, .jNum m => (if a then (1 : Int) else 0) == m
  | .jNum n, .jBool b => n == (if b then (1 : Int) else 0)
  | .jNum n, .jNum m => n == m
  | .jStr s, .jStr t => s == t
  | .jArr a, .jArr b => pyEqList a b
  | .jObj a, .jObj b => pyEqFields a b
  | _, _ => false

def pyEqList : List JVal → List JVal → Bool
  | [], [] => true
  | a :: as, b :: bs => pyEq a b && pyEqList as bs
  | _, _ => false

def pyEqFields : List (String × JVal) → List (String × JVal) → Bool
  | [], [] => true
  | (k, v) :: as, (k2, v2) :: bs => k == k2 && pyEq v v2 && pyEqFields as bs
  | _, _ => false
end

/-- Python `x or y`. -/
def pyOr (v dflt : JVal) : JVal :=
  if truthy v then v else dflt

/-- Python `s.split(",")[0]`: the longest prefix of `s` not containing a
comma. -/
def beforeFirstComma (s : String) : String :=
  String.mk (s.toList.takeWhile (fun c => c ≠ ','))

/-- Python `s.strip()`: drop whitespace from both ends. -/
def pyStrip (s : String) : String :=
  String.mk (((s.toList.dropWhile Char.isWhitespace).reverse.dropWhile
    Char.isWhitespace).reverse)

/-- Python list slicing `xs[:n]` for an integer `n` (negative `n` counts from
the end, clamping at zero). -/
def pySliceTo {α : Type} (xs : List α) (n : Int) : List α :=
  if 0 ≤ n then xs.take n.toNat
  else xs.take (xs.length - (-n).toNat)

/-- The class attribute `Crawler.root_url`. -/
def root_url : String := "https://www.kap.org.tr"

/-- The dictionary built by `_extract_fund_announcement` (lines 178-190). -/
structure FundAnnouncement where
  announcement_id : String
  date_time : JVal
  fund_code : JVal
  fund_name : JVal
  subject : JVal
  summary : JVal
  related_stocks : List JVal
  has_attachment : Bool
  attachment_count : JVal
  detail_pdf_url : String
  attachment_pdf_urls : List String

/-- The dictionary built by `_extract_company_announcement` (lines 344-356). -/
structure CompanyAnnouncement where
  announcement_id : String
  date_time : JVal
  company_code : JVal
  company_name : JVal
  subject : JVal
  summary : JVal
  related_companies : List JVal
  has_attachment : Bool
  attachment_count : JVal
  detail_pdf_url : String
  attachment_pdf_urls : List String

/-- Embeds `Crawler._extract_fund_announcement` (lines 142-196).
The whole body runs inside `try/except`; a raised exception yields `none`:
calling `.get` on a non-dict item raises, and `attachment_count > 0` raises
(`pyGtZero … = none`) when the count is not a number or boolean.  `resolver`
stands for `self._fetch_attachment_urls`. -/
def extract_fund_announcement (resolver : String → List String) (item : JVal)
    (fetch_attachments : Bool) : Option FundAnnouncement :=
  match item with
  | .jObj fields =>
    let disclosure_index := dictGet fields "disclosureIndex"
    if truthy disclosure_index then
      let detail_pdf_url := root_url ++ "/tr/api/BildirimPdf/" ++ pyStr disclosure_index
      let attachment_count := dictGetD fields "attachmentCount" (.jNum 0)
      match pyGtZero attachment_count with
      | none => none
      | some has_attachment =>
        let attachment_pdf_urls :=
          if has_attachment && fetch_attachments then resolver (pyStr disclosure_index)
          else []
        let related_stocks := dictGet fields "relatedStocks"
        let related_companies : List JVal :=
          if truthy related_stocks then
            match related_stocks with
            | .jArr l => l
            | .jStr s => [.jStr s]
            | _ => []
          else []
        some {
          announcement_id := pyStr disclosure_index
          date_time := dictGet fields "publishDate"
          fund_code := dictGet fields "fundCode"
          fund_name := dictGet fields "kapTitle"
          subject := dictGet fields "subject"
          summary := dictGet fields "summary"
          related_stocks := related_companies
          has_attachment := has_attachment
          attachment_count := attachment_count
          detail_pdf_url := detail_pdf_url
          attachment_pdf_urls := attachment_pdf_urls }
    else none
  | _ => none

/-- Embeds `Crawler._extract_company_announcement` (lines 297-362).  Identical
to the fund extractor except for the `company_code` derivation from
`stockCodes` (lines 324-333). -/
def extract_company_announcement (resolver : String → List String) (item : JVal)
    (fetch_attachments : Bool) : Option CompanyAnnouncement :=
  match item with
  | .jObj fields =>
    let disclosure_index := dictGet fields "disclosureIndex"
    if truthy disclosure_index then
      let detail_pdf_url := root_url ++ "/tr/api/BildirimPdf/" ++ pyStr disclosure_index
      let attachment_count := dictGetD fields "attachmentCount" (.jNum 0)
      match pyGtZero attachment_count with
      | none => none
      | some has_attachment =>
        let attachment_pdf_urls :=
          if has_attachment && fetch_attachments then resolver (pyStr disclosure_index)
          else []
        let stock_codes := dictGet fields "stockCodes"
        let company_code : JVal :=
          if truthy stock_codes then
            match stock_codes with
            | .jStr s => .jStr (pyStrip (beforeFirstComma s))
            | v => .jStr (pyStr v)
          else .jNull
        let related_stocks := dictGet fields "relatedStocks"
        let related_companies : List JVal :=
          if truthy related_stocks then
            match related_stocks with
            | .jArr l => l
            | .jStr s => [.jStr s]
            | _ => []
          else []
        some {
          announcement_id := pyStr disclosure_index
          date_time := dictGet fields "publishDate"
          company_code := company_code
          company_name := dictGet fields "kapTitle"
          subject := dictGet fields "subject"
          summary := dictGet fields "summary"
          related_companies := related_companies
          has_attachment := has_attachment
          attachment_count := attachment_count
          detail_pdf_url := detail_pdf_url
          attachment_pdf_urls := attachment_pdf_urls }
    else none
  | _ => none

/-- Embeds `Crawler._parse_fund_announcements` (lines 120-140):
`items = data[:limit] if limit else data`, then the append loop keeping the
non-`None` extractions. -/
def parse_fund_announcements (resolver : String → List String) (data : List JVal)
    (limit : Option Int) (fetch_attachments : Bool) : List FundAnnouncement :=
  let items :=
    match limit with
    | some n => if n ≠ 0 then pySliceTo data n else data
    | none => data
  items.filterMap (fun item => extract_fund_announcement resolver item fetch_attachments)

/-- Embeds `Crawler._parse_company_announcements` (lines 275-295). -/
def parse_company_announcements (resolver : String → List String) (data : List JVal)
    (limit : Option Int) (fetch_attachments : Bool) : List CompanyAnnouncement :=
  let items :=
    match limit with
    | some n => if n ≠ 0 then pySliceTo data n else data
    | none => data
  items.filterMap (fun item => extract_company_announcement resolver item fetch_attachments)

/-- Embeds the date-defaulting of `fetch_fund_announcements` (lines 72-76) and
`fetch_company_announcements` (lines 220-224): `to_date` defaults to
`datetime.now()`, `from_date` defaults to `datetime.now() - timedelta(days=365)`.
Result: `(from_date, to_date)` as placed in the request payload. -/
def resolve_default_dates (today : Int) (from_date to_date : Option Int) : Int × Int :=
  let to_d := match to_date with | some d => d | none => today
  let from_d := match from_date with | some d => d | none => today - 365
  (from_d, to_d)

/-- Outcome of the `session.post` call of a fetch entry point:
`raised` models a network-level exception from the request itself;
otherwise `ok` is `response.ok` and `body` is the result of `response.json()`
(`none` when decoding raised on a malformed body). -/
inductive HttpOutcome where
  | raised
  | response (ok : Bool) (body : Option JVal)

/-- Embeds `Crawler.fetch_fund_announcements` (lines 50-118) minus the raw
network call: dates are resolved as in the source and determine only the
request payload, whose transmission is abstracted by `outcome`.  Every failure
branch (exception, non-success status, undecodable or non-array body) falls
through to `return []`. -/
def fetch_fund_announcements (resolver : String → List String) (today : Int)
    (from_date to_date : Option Int) (limit : Option Int) (fetch_attachments : Bool)
    (outcome : HttpOutcome) : List FundAnnouncement :=
  let _payload_dates := resolve_default_dates today from_date to_date
  match outcome with
  | .raised => []
  | .response ok body =>
    if ok then
      match body with
      | none => []
      | some data =>
        match data with
        | .jArr items => parse_fund_announcements resolver items limit fetch_attachments
        | _ => []
    else []

/-- Embeds `Crawler.fetch_company_announcements` (lines 198-273); same
structure as the fund variant. -/
def fetch_company_announcements (resolver : String → List String) (today : Int)
    (from_date to_date : Option Int) (limit : Option Int) (fetch_attachments : Bool)
    (outcome : HttpOutcome) : List CompanyAnnouncement :=
  let _payload_dates := resolve_default_dates today from_date to_date
  match outcome with
  | .raised => []
  | .response ok body =>
    if ok then
      match body with
      | none => []
      | some data =>
        match data with
        | .jArr items => parse_company_announcements resolver items limit fetch_attachments
        | _ => []
    else []

/-- A node of the parsed detail-page HTML.  Only the data the resolver reads
is modelled: the tag name, the `href` attribute (when present) and the
children.  Text is a leaf. -/
inductive HNode where
  | text (s : String)
  | elem (tag : String) (href : Option String) (children : List HNode)

mutual
/-- All `href` values of `a` elements in the subtree rooted at the node, the
node itself included, in document (pre-)order — the iteration order of
BeautifulSoup `find_all`. -/
def nodeAnchors : HNode → List String
  | .text _ => []
  | .elem tag href children =>
    (match tag, href with
     | "a", some h => [h]
     | _, _ => []) ++ nodesAnchors children

def nodesAnchors : List HNode → List String
  | [] => []
  | n :: ns => nodeAnchors n ++ nodesAnchors ns
end

/-- BeautifulSoup `parent.find_all("a", href=True)`: anchors among the strict
descendants of the node (`find_all` does not report the tag it is called
on). -/
def descendantAnchors : HNode → List String
  | .text _ => []
  | .elem _ _ children => nodesAnchors children

/-- Substring test on character lists (`pat in s` / `re.search` of a literal
pattern). -/
def hasSubstr (pat : List Char) : List Char → Bool
  | [] => pat.isEmpty
  | c :: rest => pat.isPrefixOf (c :: rest) || hasSubstr pat rest

/-- The regex `re.compile(r"Bildirim Ekleri", re.I)` applied to a text node:
a case-insensitive substring search (the pattern is ASCII, so `re.I` is
character-wise lowercasing). -/
def labelMatches (s : String) : Bool :=
  hasSubstr "bildirim ekleri".toList (s.toList.map Char.toLower)

mutual
/-- BeautifulSoup `soup.find(string=re.compile(r"Bildirim Ekleri", re.I))`
together with the `find_parent` chain of the hit: returns the element
ancestors of the first matching text node in document order, innermost first,
the document root included — exactly the containers visited by the
`while parent:` loop of lines 389-404.  (The final iteration of that loop runs
on the BeautifulSoup document object itself; it is embedded separately in
`structuralTier` as a pass over the whole document.) -/
def findLabelAncestors : HNode → Option (List HNode)
  | .text s => if labelMatches s then some [] else none
  | .elem tag href children =>
    match findLabelAncestorsList children with
    | some path => some (path ++ [.elem tag href children])
    | none => none

def findLabelAncestorsList : List HNode → Option (List HNode)
  | [] => none
  | n :: ns =>
    match findLabelAncestors n with
    | some path => some path
    | none => findLabelAncestorsList ns
end

/-- The test `"/api/file/download/" in href` of line 397 (and the filtering
regex of line 408). -/
def isDownloadHref (href : String) : Bool :=
  hasSubstr "/api/file/download/".toList href.toList

/-- Python `href.startswith("http")` (note a leading `https` also passes). -/
def startsWithHttp (href : String) : Bool :=
  "http".toList.isPrefixOf href.toList

/-- Lines 399-400 / 411-412 / 422-423: make the URL absolute with
`urljoin(self.root_url, href)` unless it already starts with `http`.
`urljoin` against the path-less base `https://www.kap.org.tr` is modelled for
the reference forms the site emits: root-relative references keep the root
authority, other relative references resolve to `root/…`. -/
def absolutize (href : String) : String :=
  if startsWithHttp href then href
  else if "/".toList.isPrefixOf href.toList then root_url ++ href
  else root_url ++ "/" ++ href

/-- The duplicate-avoiding append of lines 401-402 / 413-414 / 424-425:
`if href not in attachment_urls: attachment_urls.append(href)`. -/
def addUnique (acc : List String) (href : String) : List String :=
  if href ∈ acc then acc else acc ++ [href]

/-- The inner loop of the structural tier (lines 393-402): for every anchor of
one container, keep it when its target contains the download path segment,
absolutized and deduplicated against the accumulated list. -/
def collectDownloadHrefs (acc : List String) (hrefs : List String) : List String :=
  hrefs.foldl
    (fun a href => if isDownloadHref href then addUnique a (absolutize href) else a) acc

/-- Tier 1 of `_fetch_attachment_urls` (lines 384-404): find the label text
node, then walk the `find_parent` chain, running the collection loop on every
container; the last loop iteration happens at the document level (`find_all`
over the whole soup). -/
def structuralTier (doc : HNode) (acc : List String) : List String :=
  match findLabelAncestors doc with
  | none => acc
  | some ancestors =>
    collectDownloadHrefs
      (ancestors.foldl (fun a parent => collectDownloadHrefs a (descendantAnchors parent)) acc)
      (nodeAnchors doc)

/-- Tier 2 of `_fetch_attachment_urls` (lines 406-414): every anchor of the
document whose target matches the download pattern, absolutized and
deduplicated into the accumulated list. -/
def anchorScanTier (doc : HNode) (acc : List String) : List String :=
  ((nodeAnchors doc).filter isDownloadHref).foldl
    (fun a href => addUnique a (absolutize href)) acc

/-- Tier 3 of `_fetch_attachment_urls` (lines 416-425): the raw-text regex
fallback.  `rawMatches` stands for
`re.findall(r"/api/file/download/[a-zA-Z0-9]+", response.text)`; every match
is absolutized (a match starts with `/`, so `urljoin` always applies) and
deduplicated into the accumulated list. -/
def rawTextTier (rawMatches : List String) (acc : List String) : List String :=
  rawMatches.foldl (fun a m => addUnique a (absolutize m)) acc

/-- Outcome of the detail-page `GET` of `_fetch_attachment_urls`: `raised`
models a network exception or the `raise_for_status()` of a non-success
status; otherwise `doc` is the parsed HTML and `rawMatches` the regex matches
over the raw response text. -/
inductive PageOutcome where
  | raised
  | page (doc : HNode) (rawMatches : List String)

/-- Embeds `Crawler._fetch_attachment_urls` (lines 364-436): three additive
tiers with shared deduplication, the raw-text tier only when the first two
found nothing; any exception yields `[]`. -/
def fetch_attachment_urls (outcome : PageOutcome) : List String :=
  match outcome with
  | .raised => []
  | .page doc rawMatches =>
    let urls := structuralTier doc []
    let urls := anchorScanTier doc urls
    if urls.isEmpty then rawTextTier rawMatches urls else urls

/-- Whether a decoded body is a JSON array (`isinstance(data, list)`). -/
def JVal.isArr : JVal → Bool
  | .jArr _ => true
  | _ => false

/-- The failure conditions named by claim C1: the request raised, the HTTP
status was not a success, the body could not be decoded, or the decoded body
is not a JSON array. -/
def apiFailure : HttpOutcome → Bool
  | .raised => true
  | .response ok body =>
    !ok ||
      (match body with
       | none => true
       | some v => !v.isArr)

/-- Modelled from the claim C8 wording, for comparison with the code: the
normalized company code as the claim describes it — the substring of
`stockCodes` before the first comma, trimmed, when it is a string; null when
it is null; its verbatim string conversion otherwise. -/
def specCompanyCode : JVal → JVal
  | .jNull => .jNull
  | .jStr s => .jStr (pyStrip (beforeFirstComma s))
  | v => .jStr (pyStr v)

/-- The per-container candidate URLs of the structural tier: anchors of the
container whose target contains the download segment, absolutized, in
document order. -/
def containerCandidates (p : HNode) : List String :=
  ((descendantAnchors p).filter isDownloadHref).map absolutize

/-- The document-wide candidate URLs (tier 2, and the document-level pass of
tier 1). -/
def documentCandidates (doc : HNode) : List String :=
  ((nodeAnchors doc).filter isDownloadHref).map absolutize

/-- The candidate URLs discovered by the structural tier, in discovery
order (before deduplication). -/
def structuralCandidates (doc : HNode) : List String :=
  match findLabelAncestors doc with
  | none => []
  | some ancestors => ancestors.flatMap containerCandidates ++ documentCandidates doc

/-- Every candidate URL the resolver discovers on a detail page, in discovery
order and with multiplicity: the structural tier, then the document-wide scan,
then — only when the first two tiers discovered nothing — the raw-text
matches. -/
def candidateStream : PageOutcome → List String
  | .raised => []
  | .page doc rawMatches =>
    let c := structuralCandidates doc ++ documentCandidates doc
    c ++ (if c.isEmpty then rawMatches.map absolutize else [])

/-- Modelled from the spec wording: first-seen-order deduplication — keep the
first occurrence of each element, drop the later ones. -/
def firstSeenDedup : List String → List String
  | [] => []
  | a :: l => a :: firstSeenDedup (l.filter (fun b => b ≠ a))
termination_by l => l.length
decreasing_by
  simp only [List.length_cons]
  exact Nat.lt_succ_of_le (List.length_filter_le _ _)

/-- Modelled from the spec wording of the structural tier (claim C6), for
comparison with the code: walk the ancestor chain but stop at the first
container that yields at least one matching anchor. -/
def specWalk : List HNode → List String
  | [] => []
  | p :: ps =>
    let found := (containerCandidates p).foldl addUnique []
    if found.isEmpty then specWalk ps else found

/-- Modelled from the spec wording (claim C6): the structural tier with the
early stop. -/
def structuralTierSpec (doc : HNode) : List String :=
  match findLabelAncestors doc with
  | none => []
  | some ancestors => specWalk ancestors

/-- A resolver that finds no attachments, used for concrete instances. -/
def noResolver : String → List String := fun _ => []

/-- A well-formed raw item (scenario 1 of the spec, identifier only). -/
def itemA : JVal := .jObj [("disclosureIndex", .jNum 1524023)]

/-- A raw item with no `disclosureIndex` field. -/
def badItem : JVal := .jObj [("subject", .jStr "x")]

/-- Fields of a raw item whose `attachmentCount` is present but null. -/
def fieldsNullCount : List (String × JVal) :=
  [("disclosureIndex", .jNum 3), ("attachmentCount", .jNull)]

/-- Fields of a raw item with no `attachmentCount` field. -/
def fieldsNoCount : List (String × JVal) := [("disclosureIndex", .jNum 5)]

/-- Fields of a company raw item with a comma-separated `stockCodes`. -/
def fieldsStock : List (String × JVal) :=
  [("disclosureIndex", .jNum 7), ("stockCodes", .jStr "TEST,OTHR")]

/-- A company raw item whose `stockCodes` is the empty string (a falsy
string). -/
def itemStockEmpty : JVal :=
  .jObj [("disclosureIndex", .jNum 7), ("stockCodes", .jStr "")]

/-- Placeholder record (only used as the default of `Option.getD` in closed
instances whose option is in fact `some`). -/
def junkFund : FundAnnouncement :=
  ⟨"", .jNull, .jNull, .jNull, .jNull, .jNull, [], false, .jNull, "", []⟩

/-- Placeholder company record, as `junkFund`. -/
def junkCompany : CompanyAnnouncement :=
  ⟨"", .jNull, .jNull, .jNull, .jNull, .jNull, [], false, .jNull, "", []⟩

/-- The record extracted from `fieldsNoCount` as a fund item. -/
def sampleFund : FundAnnouncement :=
  (extract_fund_announcement noResolver (.jObj fieldsNoCount) false).getD junkFund

/-- The record extracted from `fieldsNoCount` as a company item. -/
def sampleCompany : CompanyAnnouncement :=
  (extract_company_announcement noResolver (.jObj fieldsNoCount) false).getD junkCompany

/-- The record extracted from `fieldsStock`. -/
def sampleStockCompany : CompanyAnnouncement :=
  (extract_company_announcement noResolver (.jObj fieldsStock) false).getD junkCompany

/-- Detail-page fragment: the container holding the label and one download
anchor. -/
def divC6 : HNode :=
  .elem "div" none [.text "Bildirim Ekleri", .elem "a" (some "/api/file/download/AAA") []]

/-- Detail page whose first labelled container yields a match while a higher
ancestor holds a further download anchor. -/
def docC6 : HNode :=
  .elem "html" none [divC6, .elem "a" (some "/api/file/download/BBB") []]

theorem mem_addUnique {x a : String} {acc : List String} :
    x ∈ addUnique acc a ↔ x ∈ acc ∨ x = a := by
  by_cases h : a ∈ acc
  · simp only [addUnique, if_pos h]
    constructor
    · exact Or.inl
    · rintro (h2 | rfl)
      · exact h2
      · exact h
  · simp [addUnique, if_neg h, List.mem_append]

theorem foldl_addUnique_eq (l : List String) : ∀ acc : List String,
    l.foldl addUnique acc =
      acc ++ firstSeenDedup (l.filter (fun x => decide (x ∉ acc))) := by
  induction l with
  | nil => intro acc; simp [firstSeenDedup]
  | cons a t ih =>
    intro acc
    by_cases h : a ∈ acc
    · rw [List.foldl_cons, show addUnique acc a = acc from if_pos h, ih acc]
      congr 2
      rw [List.filter_cons]
      simp [h]
    · rw [List.foldl_cons, show addUnique acc a = acc ++ [a] from if_neg h, ih (acc ++ [a])]
      have ha : (decide (a ∉ acc)) = true := by simp [h]
      simp only [List.filter_cons, ha, if_true]
      rw [firstSeenDedup, List.append_assoc, List.singleton_append, List.filter_filter]
      have hpred : (fun x => decide (x ∉ acc ++ [a])) =
          (fun x => decide (x ≠ a) && decide (x ∉ acc)) := by
        funext x
        by_cases h1 : x = a <;> by_cases h2 : x ∈ acc <;> simp [h1, h2]
      rw [hpred]

theorem foldl_addUnique_nil (l : List String) :
    l.foldl addUnique [] = firstSeenDedup l := by
  have h := foldl_addUnique_eq l []
  simpa using h

theorem mem_firstSeenDedup {x : String} : ∀ {l : List String},
    x ∈ firstSeenDedup l ↔ x ∈ l := by
  intro l
  induction l using firstSeenDedup.induct with
  | case1 => simp [firstSeenDedup]
  | case2 a t ih =>
    rw [firstSeenDedup]
    by_cases h : x = a
    · simp [h]
    · simp only [List.mem_cons, ih, List.mem_filter, h, false_or]
      constructor
      · exact fun hh => hh.1
      · exact fun hh => ⟨hh, by simp [h]⟩

theorem nodup_firstSeenDedup : ∀ l : List String, (firstSeenDedup l).Nodup := by
  intro l
  induction l using firstSeenDedup.induct with
  | case1 => simp [firstSeenDedup]
  | case2 a t ih =>
    rw [firstSeenDedup]
    refine List.Nodup.cons ?_ ih
    intro hmem
    rw [mem_firstSeenDedup, List.mem_filter] at hmem
    simpa using hmem.2

theorem sublist_firstSeenDedup : ∀ l : List String,
    List.Sublist (firstSeenDedup l) l := by
  intro l
  induction l using firstSeenDedup.induct with
  | case1 => simp [firstSeenDedup]
  | case2 a t ih =>
    rw [firstSeenDedup]
    exact List.Sublist.cons₂ a (ih.trans (List.filter_sublist t))

theorem firstSeenDedup_eq_nil_iff {l : List String} :
    firstSeenDedup l = [] ↔ l = [] := by
  cases l with
  | nil => simp [firstSeenDedup]
  | cons a t =>
    rw [firstSeenDedup]
    simp

theorem mem_foldl_addUnique {x : String} (l : List String) (acc : List String) :
    x ∈ l.foldl addUnique acc ↔ x ∈ acc ∨ x ∈ l := by
  rw [foldl_addUnique_eq]
  by_cases h : x ∈ acc
  · simp [h]
  · simp [h, mem_firstSeenDedup, List.mem_filter]

theorem collectDownloadHrefs_eq (hrefs : List String) : ∀ acc : List String,
    collectDownloadHrefs acc hrefs =
      ((hrefs.filter isDownloadHref).map absolutize).foldl addUnique acc := by
  induction hrefs with
  | nil => intro acc; rfl
  | cons h t ih =>
    intro acc
    have step : collectDownloadHrefs acc (h :: t) =
        collectDownloadHrefs (if isDownloadHref h then addUnique acc (absolutize h) else acc) t :=
      rfl
    rw [step]
    cases hd : isDownloadHref h
    · rw [if_neg (by simp [hd]), ih, List.filter_cons, hd]
      simp
    · rw [if_pos rfl, ih, List.filter_cons, hd]
      simp

theorem anchorScanTier_eq (doc : HNode) (acc : List String) :
    anchorScanTier doc acc = (documentCandidates doc).foldl addUnique acc := by
  unfold anchorScanTier documentCandidates
  rw [List.foldl_map]

theorem rawTextTier_eq (rawMatches : List String) (acc : List String) :
    rawTextTier rawMatches acc = (rawMatches.map absolutize).foldl addUnique acc := by
  unfold rawTextTier
  rw [List.foldl_map]

theorem ancestors_foldl_eq (ps : List HNode) : ∀ acc : List String,
    ps.foldl (fun a parent => collectDownloadHrefs a (descendantAnchors parent)) acc =
      (ps.flatMap containerCandidates).foldl addUnique acc := by
  induction ps with
  | nil => intro acc; rfl
  | cons p ps ih =>
    intro acc
    rw [List.foldl_cons, List.flatMap_cons, List.foldl_append, ih,
      collectDownloadHrefs_eq]
    rfl

theorem structuralTier_eq (doc : HNode) (acc : List String) :
    structuralTier doc acc = (structuralCandidates doc).foldl addUnique acc := by
  cases h : findLabelAncestors doc with
  | none =>
    unfold structuralTier structuralCandidates
    rw [h]
    exact rfl
  | some ancestors =>
    unfold structuralTier structuralCandidates
    rw [h]
    show collectDownloadHrefs
        (ancestors.foldl (fun a parent => collectDownloadHrefs a (descendantAnchors parent)) acc)
        (nodeAnchors doc) =
      (ancestors.flatMap containerCandidates ++ documentCandidates doc).foldl addUnique acc
    rw [collectDownloadHrefs_eq, ancestors_foldl_eq, List.foldl_append]
    rfl

theorem fetch_attachment_urls_eq_dedup (o : PageOutcome) :
    fetch_attachment_urls o = firstSeenDedup (candidateStream o) := by
  cases o with
  | raised => simp [fetch_attachment_urls, candidateStream, firstSeenDedup]
  | page doc rawMatches =>
    have h12 : anchorScanTier doc (structuralTier doc []) =
        firstSeenDedup (structuralCandidates doc ++ documentCandidates doc) := by
      rw [anchorScanTier_eq, structuralTier_eq, ← List.foldl_append, foldl_addUnique_nil]
    show (if (anchorScanTier doc (structuralTier doc [])).isEmpty
        then rawTextTier rawMatches (anchorScanTier doc (structuralTier doc []))
        else anchorScanTier doc (structuralTier doc [])) = _
    rw [h12]
    by_cases hc : structuralCandidates doc ++ documentCandidates doc = []
    · rw [hc]
      have h0 : firstSeenDedup ([] : List String) = [] := by simp [firstSeenDedup]
      rw [h0]
      simp only [List.isEmpty_nil, if_true]
      rw [rawTextTier_eq, foldl_addUnique_nil]
      show _ = firstSeenDedup
        (let c := structuralCandidates doc ++ documentCandidates doc
         c ++ (if c.isEmpty then rawMatches.map absolutize else []))
      rw [show (let c := structuralCandidates doc ++ documentCandidates doc
         c ++ (if c.isEmpty then rawMatches.map absolutize else [])) =
          (structuralCandidates doc ++ documentCandidates doc) ++
            (if (structuralCandidates doc ++ documentCandidates doc).isEmpty
             then rawMatches.map absolutize else []) from rfl, hc]
      simp
    · have hne : firstSeenDedup (structuralCandidates doc ++ documentCandidates doc) ≠ [] :=
        fun hh => hc (firstSeenDedup_eq_nil_iff.1 hh)
      rw [if_neg (by simpa [List.isEmpty_iff] using hne)]
      show _ = firstSeenDedup
        ((structuralCandidates doc ++ documentCandidates doc) ++
          (if (structuralCandidates doc ++ documentCandidates doc).isEmpty
           then rawMatches.map absolutize else []))
      rw [if_neg (by simpa [List.isEmpty_iff] using hc), List.append_nil]

theorem length_filterMap_of_all_isSome {α β : Type} (f : α → Option β) :
    ∀ l : List α, (∀ x ∈ l, (f x).isSome = true) → (l.filterMap f).length = l.length := by
  intro l
  induction l with
  | nil => intro _; rfl
  | cons a t ih =>
    intro h
    have ha := h a (List.mem_cons_self a t)
    obtain ⟨b, hb⟩ := Option.isSome_iff_exists.1 ha
    rw [List.filterMap_cons, hb]
    simp only [List.length_cons]
    rw [ih (fun x hx => h x (List.mem_cons_of_mem a hx))]

/-- C1: for every criteria input, each fetch entry point returns the empty
list — rather than raising — whenever the request raised a network-level
exception, the HTTP status was not a success, the body could not be decoded
as JSON, or the decoded body is not a JSON array. -/
theorem fetch_failure_returns_empty (resolver : String → List String) (today : Int)
    (from_date to_date : Option Int) (limit : Option Int) (fetch_attachments : Bool)
    (outcome : HttpOutcome) (h : apiFailure outcome = true) :
    fetch_fund_announcements resolver today from_date to_date limit fetch_attachments
        outcome = [] ∧
    fetch_company_announcements resolver today from_date to_date limit fetch_attachments
        outcome = [] := by
  cases outcome with
  | raised => exact ⟨rfl, rfl⟩
  | response ok body =>
    cases ok with
    | false => exact ⟨rfl, rfl⟩
    | true =>
      cases body with
      | none => exact ⟨rfl, rfl⟩
      | some v =>
        cases v with
        | jArr items => exact absurd h (by simp [apiFailure, JVal.isArr])
        | jNull => exact ⟨rfl, rfl⟩
        | jBool b => exact ⟨rfl, rfl⟩
        | jNum n => exact ⟨rfl, rfl⟩
        | jStr s => exact ⟨rfl, rfl⟩
        | jObj fs => exact ⟨rfl, rfl⟩

/-- Witness for C1 at a concrete failing outcome: a success status whose body
decoded to a JSON object instead of an array. -/
theorem fetch_failure_returns_empty_witness :
    fetch_fund_announcements noResolver 0 none none none false
        (.response true (some (.jObj []))) = [] ∧
    fetch_company_announcements noResolver 0 none none none false
        (.response true (some (.jObj []))) = [] :=
  fetch_failure_returns_empty noResolver 0 none none none false
    (.response true (some (.jObj []))) rfl

/-- C2 counterexample: with `to_date` supplied explicitly and `from_date`
omitted, the `from_date` placed in the payload is not 365 days before
`to_date`: on current day 1000 with `to_date` day 0, the resolved pair is
`(635, 0)` and `635 ≠ 0 - 365`. -/
theorem default_from_date_cex :
    ¬ ((resolve_default_dates 1000 none (some 0)).1 =
        (resolve_default_dates 1000 none (some 0)).2 - 365) := by decide

/-- C2 amended: an omitted `from_date` defaults to 365 days before the
*current* date — which coincides with 365 days before `to_date` exactly when
`to_date` is also omitted — and an omitted `to_date` defaults to the current
date. -/
theorem default_dates_follow_current_date (today : Int) (from_date to_date : Option Int) :
    (resolve_default_dates today none to_date).1 = today - 365 ∧
    (resolve_default_dates today from_date none).2 = today ∧
    (resolve_default_dates today none none).1 =
      (resolve_default_dates today none none).2 - 365 :=
  ⟨rfl, rfl, rfl⟩

/-- C3 counterexample: the given limit N = 0 over the one-item array `[itemA]`
(M = 1 ≥ N) yields 1 normalized announcement, not exactly N = 0: a limit of 0
is falsy and disables truncation. -/
theorem limit_zero_not_exact_cex :
    (parse_fund_announcements noResolver [itemA] (some 0) false).length = 1 ∧
    ¬ ((parse_fund_announcements noResolver [itemA] (some 0) false).length = 0) :=
  ⟨rfl, fun h => Nat.one_ne_zero h⟩

/-- C3 amended: for a given limit N ≥ 1, the parse step processes exactly the
first N elements of the raw array in their original order (dropping those that
fail normalization); in particular it returns exactly N announcements whenever
each of those N items normalizes successfully and M ≥ N. -/
theorem limit_truncates_from_front (resolver : String → List String) (data : List JVal)
    (n : Int) (fetch_attachments : Bool) (h : 1 ≤ n) :
    parse_fund_announcements resolver data (some n) fetch_attachments =
      (data.take n.toNat).filterMap
        (fun item => extract_fund_announcement resolver item fetch_attachments) ∧
    parse_company_announcements resolver data (some n) fetch_attachments =
      (data.take n.toNat).filterMap
        (fun item => extract_company_announcement resolver item fetch_attachments) ∧
    ((∀ item ∈ data.take n.toNat,
        (extract_fund_announcement resolver item fetch_attachments).isSome = true) →
      n.toNat ≤ data.length →
      (parse_fund_announcements resolver data (some n) fetch_attachments).length = n.toNat) := by
  have hne : n ≠ 0 := by omega
  have hslice : pySliceTo data n = data.take n.toNat := by
    unfold pySliceTo
    rw [if_pos (by omega)]
  have hfund : parse_fund_announcements resolver data (some n) fetch_attachments =
      (data.take n.toNat).filterMap
        (fun item => extract_fund_announcement resolver item fetch_attachments) := by
    simp only [parse_fund_announcements]
    rw [if_pos hne, hslice]
  refine ⟨hfund, ?_, ?_⟩
  · simp only [parse_company_announcements]
    rw [if_pos hne, hslice]
  · intro hall hlen
    rw [hfund, length_filterMap_of_all_isSome _ _ hall, List.length_take]
    omega

/-- Witness for C3 amended: limit 1 over the one-item array `[itemA]`. -/
theorem limit_truncates_from_front_witness :
    parse_fund_announcements noResolver [itemA] (some 1) false =
      ([itemA].take (1 : Int).toNat).filterMap
        (fun item => extract_fund_announcement noResolver item false) ∧
    (parse_fund_announcements noResolver [itemA] (some 1) false).length = (1 : Int).toNat := by
  have h := limit_truncates_from_front noResolver [itemA] 1 false (by decide)
  refine ⟨h.1, h.2.2 ?_ (by decide)⟩
  intro item hmem
  have heq : [itemA].take (1 : Int).toNat = [itemA] := rfl
  rw [heq, List.mem_singleton] at hmem
  rw [hmem]
  rfl

/-- C5: a raw item whose `disclosureIndex` is absent or falsy normalizes to
`none`, and the batch result is exactly the batch without that item — every
sibling is normalized unaffected, in order, with no abort. -/
theorem missing_index_dropped (resolver : String → List String) (fetch_attachments : Bool)
    (pre post : List JVal) (bad : JVal)
    (h : ∀ fs, bad = .jObj fs → truthy (dictGet fs "disclosureIndex") = false) :
    extract_fund_announcement resolver bad fetch_attachments = none ∧
    parse_fund_announcements resolver (pre ++ bad :: post) none fetch_attachments =
      parse_fund_announcements resolver (pre ++ post) none fetch_attachments := by
  have hnone : extract_fund_announcement resolver bad fetch_attachments = none := by
    cases bad with
    | jObj fs =>
      have hf := h fs rfl
      simp only [extract_fund_announcement]
      rw [if_neg (by simp [hf])]
    | jNull => rfl
    | jBool b => rfl
    | jNum n => rfl
    | jStr s => rfl
    | jArr l => rfl
  refine ⟨hnone, ?_⟩
  simp only [parse_fund_announcements, List.filterMap_append, List.filterMap_cons, hnone]

/-- Witness for C5 at a concrete batch: `badItem` has no `disclosureIndex`
and is dropped while `itemA` survives. -/
theorem missing_index_dropped_witness :
    extract_fund_announcement noResolver badItem false = none ∧
    parse_fund_announcements noResolver [itemA, badItem] none false =
      parse_fund_announcements noResolver [itemA] none false := by
  refine missing_index_dropped noResolver false [itemA] [] badItem ?_
  intro fs hfs
  rw [show badItem = JVal.jObj [("subject", JVal.jStr "x")] from rfl] at hfs
  injection hfs with h2
  rw [← h2]
  rfl

/-- C9: a limit of 0 is falsy in `data[:limit] if limit else data`, so the
whole array is processed — limit 0 behaves exactly like no limit. -/
theorem limit_zero_means_no_limit (resolver : String → List String) (data : List JVal)
    (fetch_attachments : Bool) :
    parse_fund_announcements resolver data (some 0) fetch_attachments =
      parse_fund_announcements resolver data none fetch_attachments ∧
    parse_company_announcements resolver data (some 0) fetch_attachments =
      parse_company_announcements resolver data none fetch_attachments :=
  ⟨rfl, rfl⟩

/-- C10: a raw item whose `attachmentCount` field is present but null is
normalized to `none` by both extractors — `None > 0` raises inside the
per-item guard — and the batch drops exactly that item; the null count is not
treated as 0. -/
theorem null_attachment_count_drops_item (fields : List (String × JVal))
    (fetch_attachments : Bool) (resolver : String → List String) (pre post : List JVal)
    (h : fields.lookup "attachmentCount" = some .jNull) :
    extract_fund_announcement resolver (.jObj fields) fetch_attachments = none ∧
    extract_company_announcement resolver (.jObj fields) fetch_attachments = none ∧
    parse_fund_announcements resolver (pre ++ .jObj fields :: post) none fetch_attachments =
      parse_fund_announcements resolver (pre ++ post) none fetch_attachments := by
  have hcount : dictGetD fields "attachmentCount" (.jNum 0) = .jNull := by
    unfold dictGetD
    rw [h]
  have hfund : extract_fund_announcement resolver (.jObj fields) fetch_attachments = none := by
    simp [extract_fund_announcement, hcount, pyGtZero]
  have hcompany : extract_company_announcement resolver (.jObj fields) fetch_attachments
      = none := by
    simp [extract_company_announcement, hcount, pyGtZero]
  refine ⟨hfund, hcompany, ?_⟩
  simp only [parse_fund_announcements, List.filterMap_append, List.filterMap_cons, hfund]

/-- Witness for C10 at a concrete item with `attachmentCount = null`. -/
theorem null_attachment_count_drops_item_witness :
    extract_fund_announcement noResolver (.jObj fieldsNullCount) false = none ∧
    extract_company_announcement noResolver (.jObj fieldsNullCount) false = none ∧
    parse_fund_announcements noResolver [itemA, .jObj fieldsNullCount] none false =
      parse_fund_announcements noResolver [itemA] none false :=
  null_attachment_count_drops_item fieldsNullCount false noResolver [itemA] [] rfl

theorem extract_fund_fields (resolver : String → List String)
    (fields : List (String × JVal)) (fa : Bool) (r : FundAnnouncement)
    (hr : extract_fund_announcement resolver (.jObj fields) fa = some r) :
    ∃ b, pyGtZero (dictGetD fields "attachmentCount" (.jNum 0)) = some b ∧
      r.attachment_count = dictGetD fields "attachmentCount" (.jNum 0) ∧
      r.has_attachment = b := by
  simp only [extract_fund_announcement] at hr
  split at hr
  · split at hr
    · exact absurd hr (by simp)
    · rename_i b heq
      injection hr with hr2
      subst hr2
      exact ⟨b, heq, rfl, rfl⟩
  · exact absurd hr (by simp)

theorem extract_company_fields (resolver : String → List String)
    (fields : List (String × JVal)) (fa : Bool) (r : CompanyAnnouncement)
    (hr : extract_company_announcement resolver (.jObj fields) fa = some r) :
    ∃ b, pyGtZero (dictGetD fields "attachmentCount" (.jNum 0)) = some b ∧
      r.attachment_count = dictGetD fields "attachmentCount" (.jNum 0) ∧
      r.has_attachment = b ∧
      r.company_code = (if truthy (dictGet fields "stockCodes") then
          match dictGet fields "stockCodes" with
          | .jStr s => JVal.jStr (pyStrip (beforeFirstComma s))
          | v => JVal.jStr (pyStr v)
        else .jNull) := by
  simp only [extract_company_announcement] at hr
  split at hr
  · split at hr
    · exact absurd hr (by simp)
    · rename_i b heq
      injection hr with hr2
      subst hr2
      exact ⟨b, heq, rfl, rfl, rfl⟩
  · exact absurd hr (by simp)

theorem pyEq_count_or_zero (fields : List (String × JVal)) (b : Bool)
    (heq : pyGtZero (dictGetD fields "attachmentCount" (.jNum 0)) = some b) :
    pyEq (dictGetD fields "attachmentCount" (.jNum 0))
      (pyOr (dictGet fields "attachmentCount") (.jNum 0)) = true := by
  cases hl : fields.lookup "attachmentCount" with
  | none =>
    have h1 : dictGetD fields "attachmentCount" (.jNum 0) = .jNum 0 := by
      unfold dictGetD; rw [hl]
    have h2 : dictGet fields "attachmentCount" = .jNull := by
      unfold dictGet; rw [hl]
    rw [h1, h2]
    simp [pyOr, truthy, pyEq]
  | some v =>
    have h1 : dictGetD fields "attachmentCount" (.jNum 0) = v := by
      unfold dictGetD; rw [hl]
    have h2 : dictGet fields "attachmentCount" = v := by
      unfold dictGet; rw [hl]
    rw [h1, h2]
    rw [h1] at heq
    cases v with
    | jNum n =>
      unfold pyOr
      cases htr : truthy (.jNum n)
      · have hn : n = 0 := by simpa [truthy] using htr
        rw [if_neg (by simp [htr])]
        subst hn
        rfl
      · rw [if_pos rfl]
        show (n == n) = true
        simp
    | jBool c =>
      cases c
      · rfl
      · rfl
    | jNull => exact absurd heq (by simp [pyGtZero])
    | jStr s => exact absurd heq (by simp [pyGtZero])
    | jArr l => exact absurd heq (by simp [pyGtZero])
    | jObj fs => exact absurd heq (by simp [pyGtZero])

/-- C4: every raw item that yields a record satisfies, in the record,
`attachment_count == (item.attachmentCount or 0)` under Python equality and
`has_attachment ⟺ attachment_count > 0`; in particular an absent
`attachmentCount` is treated as 0 and gives `has_attachment = false`. -/
theorem attachment_count_and_flag (fields : List (String × JVal))
    (fetch_attachments : Bool) (resolver : String → List String) :
    (∀ r, extract_fund_announcement resolver (.jObj fields) fetch_attachments = some r →
      pyEq r.attachment_count (pyOr (dictGet fields "attachmentCount") (.jNum 0)) = true ∧
      (r.has_attachment = true ↔ pyGtZero r.attachment_count = some true) ∧
      (fields.lookup "attachmentCount" = none →
        r.attachment_count = .jNum 0 ∧ r.has_attachment = false)) ∧
    (∀ r, extract_company_announcement resolver (.jObj fields) fetch_attachments = some r →
      pyEq r.attachment_count (pyOr (dictGet fields "attachmentCount") (.jNum 0)) = true ∧
      (r.has_attachment = true ↔ pyGtZero r.attachment_count = some true) ∧
      (fields.lookup "attachmentCount" = none →
        r.attachment_count = .jNum 0 ∧ r.has_attachment = false)) := by
  constructor
  · intro r hr
    obtain ⟨b, heq, hcnt, hflag⟩ :=
      extract_fund_fields resolver fields fetch_attachments r hr
    refine ⟨?_, ?_, ?_⟩
    · rw [hcnt]
      exact pyEq_count_or_zero fields b heq
    · rw [hflag, hcnt, heq]
      simp
    · intro hnone
      have h1 : dictGetD fields "attachmentCount" (.jNum 0) = .jNum 0 := by
        unfold dictGetD; rw [hnone]
      rw [h1] at heq hcnt
      have hb : b = false := by simpa [pyGtZero] using heq.symm
      exact ⟨hcnt, by rw [hflag, hb]⟩
  · intro r hr
    obtain ⟨b, heq, hcnt, hflag, hcode⟩ :=
      extract_company_fields resolver fields fetch_attachments r hr
    refine ⟨?_, ?_, ?_⟩
    · rw [hcnt]
      exact pyEq_count_or_zero fields b heq
    · rw [hflag, hcnt, heq]
      simp
    · intro hnone
      have h1 : dictGetD fields "attachmentCount" (.jNum 0) = .jNum 0 := by
        unfold dictGetD; rw [hnone]
      rw [h1] at heq hcnt
      have hb : b = false := by simpa [pyGtZero] using heq.symm
      exact ⟨hcnt, by rw [hflag, hb]⟩

/-- Witness for C4 at a concrete item with `attachmentCount` absent. -/
theorem attachment_count_and_flag_witness :
    pyEq sampleFund.attachment_count
        (pyOr (dictGet fieldsNoCount "attachmentCount") (.jNum 0)) = true ∧
    sampleFund.has_attachment = false ∧
    pyEq sampleCompany.attachment_count
        (pyOr (dictGet fieldsNoCount "attachmentCount") (.jNum 0)) = true ∧
    sampleCompany.has_attachment = false := by
  have h := attachment_count_and_flag fieldsNoCount false noResolver
  have hf := h.1 sampleFund rfl
  have hc := h.2 sampleCompany rfl
  exact ⟨hf.1, (hf.2.2 rfl).2, hc.1, (hc.2.2 rfl).2⟩

/-- C8 counterexample: on a company item whose `stockCodes` is the empty
string — a string, but falsy — the code gives `code = null`, while the claim
prescribes the before-comma trimmed substring, which is the string `""`. -/
theorem company_code_empty_string_cex :
    (extract_company_announcement noResolver itemStockEmpty false).map
        (fun r => r.company_code) = some .jNull ∧
    specCompanyCode (.jStr "") = .jStr "" ∧
    JVal.jNull ≠ JVal.jStr "" :=
  ⟨rfl, rfl, fun h => JVal.noConfusion h⟩

/-- C8 amended: the normalized company code is null whenever `stockCodes` is
falsy (null, absent, the empty string, zero, an empty list, …); when
`stockCodes` is truthy it is the before-first-comma substring trimmed of
whitespace for a string, and the verbatim string conversion otherwise. -/
theorem company_code_extraction (fields : List (String × JVal)) (fetch_attachments : Bool)
    (resolver : String → List String) (r : CompanyAnnouncement)
    (hr : extract_company_announcement resolver (.jObj fields) fetch_attachments = some r) :
    (truthy (dictGet fields "stockCodes") = false → r.company_code = .jNull) ∧
    (∀ s, dictGet fields "stockCodes" = .jStr s →
      truthy (dictGet fields "stockCodes") = true →
      r.company_code = .jStr (pyStrip (beforeFirstComma s))) ∧
    (truthy (dictGet fields "stockCodes") = true →
      (∀ s, dictGet fields "stockCodes" ≠ .jStr s) →
      r.company_code = .jStr (pyStr (dictGet fields "stockCodes"))) := by
  obtain ⟨b, heq, hcnt, hflag, hcode⟩ :=
    extract_company_fields resolver fields fetch_attachments r hr
  refine ⟨?_, ?_, ?_⟩
  · intro hf
    rw [hcode, if_neg (by simp [hf])]
  · intro s hs ht
    rw [hs] at ht
    rw [hcode, hs, if_pos ht]
  · intro ht hns
    rw [hcode, if_pos ht]
    cases hv : dictGet fields "stockCodes" with
    | jStr s => exact absurd hv (hns s)
    | jNull => rfl
    | jBool c => rfl
    | jNum n => rfl
    | jArr l => rfl
    | jObj fs => rfl

/-- Witness for C8 amended: `stockCodes = "TEST,OTHR"` yields the code
`"TEST"`. -/
theorem company_code_extraction_witness :
    sampleStockCompany.company_code = .jStr "TEST" := by
  have h := (company_code_extraction fieldsStock false noResolver
    sampleStockCompany rfl).2.1 "TEST,OTHR" rfl rfl
  exact h.trans rfl

/-- C6 counterexample: on `docC6` the first (innermost) labelled container
already yields the `AAA` anchor, yet the structural tier also collects the
`BBB` anchor that occurs only in a higher ancestor — the walk of the code has
no early stop, unlike the spec-modelled walk. -/
theorem structural_walk_no_stop_cex :
    structuralTierSpec docC6 = ["https://www.kap.org.tr/api/file/download/AAA"] ∧
    structuralTier docC6 [] =
      ["https://www.kap.org.tr/api/file/download/AAA",
        "https://www.kap.org.tr/api/file/download/BBB"] ∧
    ¬ ("https://www.kap.org.tr/api/file/download/BBB" ∈ structuralTierSpec docC6) := by
  refine ⟨rfl, rfl, ?_⟩
  intro hmem
  rw [show structuralTierSpec docC6 =
    ["https://www.kap.org.tr/api/file/download/AAA"] from rfl, List.mem_singleton] at hmem
  exact absurd hmem (by decide)

/-- C6 amended: the ancestor walk of the structural tier never stops early:
every download anchor found under any ancestor of the label text node — also
under ancestors above the first one that yielded a match — ends up in the
tier output (deduplicated). -/
theorem structural_walk_collects_all (doc : HNode) (acc : List String)
    (ancestors : List HNode) (p : HNode) (href : String)
    (hfind : findLabelAncestors doc = some ancestors) (hp : p ∈ ancestors)
    (hh : href ∈ descendantAnchors p) (hd : isDownloadHref href = true) :
    absolutize href ∈ structuralTier doc acc := by
  rw [structuralTier_eq, mem_foldl_addUnique]
  right
  unfold structuralCandidates
  rw [hfind]
  apply List.mem_append_left
  rw [List.mem_flatMap]
  refine ⟨p, hp, ?_⟩
  unfold containerCandidates
  exact List.mem_map_of_mem _ (List.mem_filter.2 ⟨hh, hd⟩)

/-- Witness for C6 amended on `docC6`: the `BBB` anchor lives only under the
outermost ancestor, above the first match, and is still collected. -/
theorem structural_walk_collects_all_witness :
    absolutize "/api/file/download/BBB" ∈ structuralTier docC6 [] :=
  structural_walk_collects_all docC6 [] [divC6, docC6] docC6 "/api/file/download/BBB"
    rfl (List.mem_cons_of_mem divC6 (List.mem_cons_self docC6 []))
    (by decide) (by decide)

/-- C7: the resolver output is exactly the first-seen-order deduplication of
the candidate URLs the tiers discover: it has no duplicates, it is a sublist
of the discovery stream (so the surviving occurrences keep their discovery
order, each at its first discovery), and it contains exactly the discovered
URLs. -/
theorem resolver_dedups_preserving_first_seen (o : PageOutcome) :
    fetch_attachment_urls o = firstSeenDedup (candidateStream o) ∧
    (fetch_attachment_urls o).Nodup ∧
    List.Sublist (fetch_attachment_urls o) (candidateStream o) ∧
    (∀ x, x ∈ fetch_attachment_urls o ↔ x ∈ candidateStream o) := by
  have h := fetch_attachment_urls_eq_dedup o
  refine ⟨h, ?_, ?_, ?_⟩
  · rw [h]
    exact nodup_firstSeenDedup _
  · rw [h]
    exact sublist_firstSeenDedup _
  · intro x
    rw [h]
    exact mem_firstSeenDedup
